import Mathlib

/-!
Verification of the WideSky operation implementations
(`pyhaystack/client/ops/vendor/widesky.py`): the authentication
state machine (`WideskyAuthenticateOperation`) and the entity creation
operation (`CreateEntityOperation`), embedded shallowly in Lean.

Python values are modelled by `PyVal`, Python exceptions by `PyError`,
and fallible Python code by `Except PyError`.  The asynchronous HTTP
transport is a parameter (`Nat → Delivery` gives the delivery for the
n-th POST).  Machine integers do not occur; Python ints are `Int`.
-/

set_option autoImplicit false

namespace Widesky

/-- Model of the Python values this slice manipulates: strings,
integers, `hszinc.Ref` objects (whose `name` attribute may hold any
value, as the `Ref` constructor does not validate), and dicts with
string keys.  JSON objects decoded by `json.loads` are dicts. -/
inductive PyVal where
  | str (s : String)
  | int (n : Int)
  | ref (name : PyVal)
  | dict (kvs : List (String × PyVal))

/-- Model of the Python exceptions raised in this slice. -/
inductive PyError where
  | valueError (msg : String)
  | typeError (msg : String)
  | keyError (key : String)
  | attributeError (attr : String)
deriving DecidableEq, Repr

mutual

/-- Rendering of a `PyVal` as Python would for `%s` / `%r` formatting
(dict repr, quoted strings).  Used only to build exception messages. -/
def pyValRepr : PyVal → String
  | PyVal.str s => "\x27" ++ s ++ "\x27"
  | PyVal.int n => toString n
  | PyVal.ref n => "Ref(" ++ pyValRepr n ++ ")"
  | PyVal.dict kvs => "\x7b" ++ pyValReprKVs kvs ++ "\x7d"

/-- Rendering of the key/value list of a dict, comma separated. -/
def pyValReprKVs : List (String × PyVal) → String
  | [] => ""
  | [(k, v)] => "\x27" ++ k ++ "\x27: " ++ pyValRepr v
  | (k, v) :: rest => "\x27" ++ k ++ "\x27: " ++ pyValRepr v ++ ", " ++ pyValReprKVs rest

end

/-- Boolean substring test on character lists, mirroring Python
`x in s` for strings (the empty pattern is contained in anything). -/
def charsContain (pat : List Char) : List Char → Bool
  | [] => pat.isEmpty
  | c :: cs => pat.isPrefixOf (c :: cs) || charsContain pat cs

/-- Python membership test `x in y` for a string `x`: substring test on
a string, key test on a dict, `TypeError` on non-iterable values such
as `hszinc.Ref` objects and ints. -/
def pyIn (x : String) (y : PyVal) : Except PyError Bool :=
  match y with
  | PyVal.str s => Except.ok (charsContain x.data s.data)
  | PyVal.dict kvs => Except.ok (kvs.any (fun kv => kv.1 == x))
  | PyVal.ref _ => Except.error (PyError.typeError "argument of type Ref is not iterable")
  | PyVal.int _ => Except.error (PyError.typeError "argument of type int is not iterable")

/-- Is the value a Python dict? -/
def PyVal.isDict : PyVal → Bool
  | PyVal.dict _ => true
  | _ => false

/-- The whitespace set Python `str.strip()` removes. -/
def pySpace (c : Char) : Bool :=
  c == ' ' || c == '\t' || c == '\n' || c == '\r' || c == '\x0b' || c == '\x0c'

/-- Python `s.strip()`: surrounding whitespace removed. -/
def pyStrip (s : String) : String :=
  ⟨((s.data.dropWhile pySpace).reverse.dropWhile pySpace).reverse⟩

/-- Split a character list at the first occurrence of `sep`:
the part before it and the whole remainder after it. -/
def splitOnceChar (sep : Char) : List Char → Option (List Char × List Char)
  | [] => none
  | c :: cs =>
      if c = sep then some ([], cs)
      else
        match splitOnceChar sep cs with
        | none => none
        | some (a, b) => some (c :: a, b)

/-- Python `s.split(sep, 1)` for a one-character separator (the only
kind this code uses), returned as a list of one or two strings. -/
def pySplit1 (s : String) (sep : Char) : List String :=
  match splitOnceChar sep s.data with
  | none => [s]
  | some (a, b) => [⟨a⟩, ⟨b⟩]

/-- Python `s.split(sep)` for a one-character separator: every
occurrence splits, empty segments kept. -/
def splitAllChar (sep : Char) : List Char → List (List Char)
  | [] => [[]]
  | c :: cs =>
      if c = sep then [] :: splitAllChar sep cs
      else
        match splitAllChar sep cs with
        | [] => [[c]]
        | p :: ps => (c :: p) :: ps

/-- Quote/escape state of the `shlexCore` scanner. -/
inductive ShMode where
  | out
  | inSingle
  | inDouble
deriving DecidableEq

/-- Modelled from the spec: the parameter segment of a Content-Type
header is "tokenized shell-style (so quoted parameter values are
honored)".  This is the stdlib `shlex.split` (POSIX mode,
whitespace-split), which is not part of this repository: whitespace
separates tokens, single quotes group literally, double quotes group
with backslash escaping of the quote and the backslash, a backslash
outside quotes escapes the next character, and an unterminated quote
or trailing escape is a `ValueError`. -/
def shlexCore : List Char → ShMode → String → Bool → Except PyError (List String)
  | [], ShMode.out, cur, started =>
      Except.ok (if started then [cur] else [])
  | [], _, _, _ => Except.error (PyError.valueError "No closing quotation")
  | c :: cs, ShMode.out, cur, started =>
      if c = ' ' ∨ c = '\t' ∨ c = '\n' ∨ c = '\r' then
        match shlexCore cs ShMode.out "" false with
        | Except.error e => Except.error e
        | Except.ok toks => Except.ok (if started then cur :: toks else toks)
      else if c = '\x27' then shlexCore cs ShMode.inSingle cur true
      else if c = '"' then shlexCore cs ShMode.inDouble cur true
      else if c = '\\' then
        match cs with
        | [] => Except.error (PyError.valueError "No escaped character")
        | d :: ds => shlexCore ds ShMode.out (cur.push d) true
      else shlexCore cs ShMode.out (cur.push c) true
  | c :: cs, ShMode.inSingle, cur, started =>
      if c = '\x27' then shlexCore cs ShMode.out cur started
      else shlexCore cs ShMode.inSingle (cur.push c) started
  | c :: cs, ShMode.inDouble, cur, started =>
      if c = '"' then shlexCore cs ShMode.out cur started
      else if c = '\\' then
        match cs with
        | [] => Except.error (PyError.valueError "No escaped character")
        | d :: ds =>
            if d = '"' ∨ d = '\\' then shlexCore ds ShMode.inDouble (cur.push d) started
            else shlexCore ds ShMode.inDouble ((cur.push c).push d) started
      else shlexCore cs ShMode.inDouble (cur.push c) started

/-- `shlex.split` on a string. -/
def shlexSplit (s : String) : Except PyError (List String) :=
  shlexCore s.data ShMode.out "" false

/-- Python `dict(pairs)` applied to a list of key/value token lists
(`tuple(kv.split('=', 1))` items): an element that is not a pair is a
`ValueError`, as in `dict`. -/
def dictOfKvLists : List (List String) → Except PyError (List (String × String))
  | [] => Except.ok []
  | [k, v] :: rest =>
      match dictOfKvLists rest with
      | Except.error e => Except.error e
      | Except.ok d => Except.ok ((k, v) :: d)
  | _ :: _ => Except.error
      (PyError.valueError "dictionary update sequence element has wrong length")

/-- Python dict lookup `d.get(k)` on an association list built by
`dict(...)`: a later binding of the same key wins. -/
def pyDictGet (d : List (String × String)) (k : String) : Option String :=
  (d.reverse.find? (fun kv => kv.1 == k)).map (fun kv => kv.2)

/-- The Content-Type parsing performed by
`WideskyAuthenticateOperation._on_login` (widesky.py lines 110-126):
a missing header is a `ValueError`; with a `;` the header splits once
into media type and a parameter segment tokenized by `shlex.split`
into `key=value` pairs; the media type is stripped of surrounding
whitespace (the source strips twice on the `;` path; `trim` is
idempotent, so one `trim` is applied on each path here). -/
def parseContentType : Option String → Except PyError (String × List (String × String))
  | none => Except.error (PyError.valueError "No content-type given in reply")
  | some ct0 =>
      if ct0.data.contains ';' then
        match pySplit1 ct0 ';' with
        | [mt, argStr] =>
            match shlexSplit argStr with
            | Except.error e => Except.error e
            | Except.ok toks =>
                match dictOfKvLists (toks.map (fun kv => pySplit1 kv '=')) with
                | Except.error e => Except.error e
                | Except.ok args => Except.ok (pyStrip mt, args)
        | _ => Except.error (PyError.valueError "split returned an unexpected shape")
      else Except.ok (pyStrip ct0, [])

/-! ## The authentication operation (`WideskyAuthenticateOperation`) -/

/-- An HTTP response as seen by `_on_login`: a header dict, and the
composite of `response.body.decode(charset)` followed by `json.loads`,
abstracted as a function from the optional charset parameter to the
decoded JSON value or the raised decoding/parsing error (both stdlib
operations external to this repository). -/
structure Response where
  headers : List (String × String)
  decodeBody : Option String → Except PyError PyVal

/-- What the transport delivers to the registered `_on_login` callback:
either a response object, or an `AsynchronousException` capture (whose
`reraise` surfaces the wrapped `PyError`). -/
inductive Delivery where
  | response (r : Response)
  | asyncExc (e : PyError)

/-- The three mandatory fields checked by `_on_login` (line 136), in
the order the tuple lists them. -/
def mandatoryKeys : List String := ["token_type", "access_token", "expires_in"]

/-- The key-presence loop of `_on_login` (lines 136-138): the first
key not contained in the reply raises a `ValueError` naming the key
and showing the reply. -/
def checkKeys (reply : PyVal) : List String → Except PyError Unit
  | [] => Except.ok ()
  | k :: ks =>
      match pyIn k reply with
      | Except.error e => Except.error e
      | Except.ok true => checkKeys reply ks
      | Except.ok false =>
          Except.error (PyError.valueError ("Missing " ++ k ++ " in reply :" ++ pyValRepr reply))

/-- The body of `_on_login`'s try block (widesky.py lines 106-140):
reraise a delivered `AsynchronousException`; parse the Content-Type
header; require media type `application/json`; decode the body with
the `charset` parameter if any; require the mandatory keys. -/
def onLoginTry (d : Delivery) : Except PyError PyVal :=
  match d with
  | Delivery.asyncExc e => Except.error e
  | Delivery.response resp =>
      match parseContentType (pyDictGet resp.headers "Content-Type") with
      | Except.error e => Except.error e
      | Except.ok (contentType, contentTypeArgs) =>
          if contentType ≠ "application/json" then
            Except.error (PyError.valueError ("Invalid content type received: " ++ contentType))
          else
            match resp.decodeBody (pyDictGet contentTypeArgs "charset") with
            | Except.error e => Except.error e
            | Except.ok reply =>
                match checkKeys reply mandatoryKeys with
                | Except.error e => Except.error e
                | Except.ok _ => Except.ok reply

/-- The event `_on_login` fires into the state machine: `login_done`
with the decoded reply on success, or (via the catch-all except at
lines 141-142) `exception` carrying the captured error. -/
inductive LoginStep where
  | loginDone (reply : PyVal)
  | exception (e : PyError)

/-- `_on_login` as a whole: the try body with its catch-all handler. -/
def onLogin (d : Delivery) : LoginStep :=
  match onLoginTry d with
  | Except.ok reply => LoginStep.loginDone reply
  | Except.error e => LoginStep.exception e

/-- States of the `WideskyAuthenticateOperation` Fysom machine
(widesky.py lines 68-81). -/
inductive St where
  | init
  | login
  | failed
  | done
deriving DecidableEq, Repr

/-- What `_do_fail_retry` decides on entering `failed` (lines
144-152): with a strictly positive retry budget, decrement it and fire
`retry`; otherwise fire `abort`. -/
inductive FailAction where
  | retry
  | abort
deriving DecidableEq, Repr

/-- `_do_fail_retry`'s effect on `self._retries` and the event it
fires: `if self._retries > 0: self._retries -= 1; retry else abort`. -/
def doFailRetry (r : Int) : Int × FailAction :=
  if 0 < r then (r - 1, FailAction.retry) else (r, FailAction.abort)

/-- The value the operation finally delivers: the decoded `AuthResult`
payload, or the captured `AsynchronousException`. -/
inductive OpOutcome where
  | success (reply : PyVal)
  | failure (e : PyError)

/-- Observable state of one `WideskyAuthenticateOperation` instance:
the Fysom state, `self._retries`, the delivered result slot, how many
times the completion handler has fired, the one-shot completion guard,
the number of login POSTs issued so far, and the trace of `_retries`
values recorded after each `_do_fail_retry` run (for the reachable
state invariant). -/
structure OpState where
  fsm : St
  retries : Int
  resultSlot : Option OpOutcome
  handlerFires : Nat
  doneFlag : Bool
  attempts : Nat
  retriesTrace : List Int

/-- Modelled from the spec: `HaystackOperation._done`
(`pyhaystack/util/state.py`, not under src).  Per the spec, the
completion contract is a single designated handler that fires exactly
once with the final result or captured exception, and a second
completion attempt "must be detectable (e.g., via an assertion/guard)
rather than silently tolerated": the one-shot guard `doneFlag` makes a
second delivery fire no handler and leave the stored result alone. -/
def opDone (s : OpState) (r : OpOutcome) : OpState :=
  if s.doneFlag then { s with fsm := St.done }
  else { s with
    fsm := St.done
    doneFlag := true
    resultSlot := some r
    handlerFires := s.handlerFires + 1 }

/-- One entry into the `login` state and everything that follows it
until the machine quiesces: `_do_login` issues the POST for the
current attempt index (the transport `tr` gives each attempt's
delivery), `_on_login` classifies the delivery, `login_done` completes
via `_do_done`, and `exception` enters `failed` where `_do_fail_retry`
either re-enters `login` or aborts to `done` carrying the failure. -/
def runLogin (tr : Nat → Delivery) (s : OpState) : OpState :=
  match onLogin (tr s.attempts) with
  | LoginStep.loginDone reply =>
      opDone { s with fsm := St.login, attempts := s.attempts + 1 } (OpOutcome.success reply)
  | LoginStep.exception e =>
      match hp : doFailRetry s.retries with
      | (r2, FailAction.retry) =>
          runLogin tr { s with
            fsm := St.failed
            attempts := s.attempts + 1
            retries := r2
            retriesTrace := s.retriesTrace ++ [r2] }
      | (r2, FailAction.abort) =>
          opDone { s with
            fsm := St.failed
            attempts := s.attempts + 1
            retries := r2
            retriesTrace := s.retriesTrace ++ [r2] } (OpOutcome.failure e)
termination_by s.retries.toNat
decreasing_by
  simp only [doFailRetry] at hp
  split at hp
  · cases hp
    omega
  · cases hp

/-- The `exception` event fired from outside the normal chain (Fysom
enables it from every state, the final `done` included): the machine
enters `failed` and `_do_fail_retry` runs, either re-entering `login`
or aborting to `done` with the carried error. -/
def fireException (tr : Nat → Delivery) (s : OpState) (e : PyError) : OpState :=
  match doFailRetry s.retries with
  | (r2, FailAction.retry) =>
      runLogin tr { s with
        fsm := St.failed
        retries := r2
        retriesTrace := s.retriesTrace ++ [r2] }
  | (r2, FailAction.abort) =>
      opDone { s with
        fsm := St.failed
        retries := r2
        retriesTrace := s.retriesTrace ++ [r2] } (OpOutcome.failure e)

/-- The state update `_do_fail_retry` performs after the machine
enters `failed` through one more failed attempt, written as the state
it hands to `retry` (budget left: decrement and re-enter `login`) or
to `abort` (budget spent: the retries counter is left alone).  The
trace records the counter after the call, for the reachable-state
invariant. -/
def failedStep (s : OpState) : OpState :=
  if 0 < s.retries then
    { s with
      fsm := St.failed
      attempts := s.attempts + 1
      retries := s.retries - 1
      retriesTrace := s.retriesTrace ++ [s.retries - 1] }
  else
    { s with
      fsm := St.failed
      attempts := s.attempts + 1
      retriesTrace := s.retriesTrace ++ [s.retries] }

/-- The operation state right after `__init__` with the given retry
budget. -/
def initOpState (retries : Int) : OpState :=
  { fsm := St.init
    retries := retries
    resultSlot := none
    handlerFires := 0
    doneFlag := false
    attempts := 0
    retriesTrace := [] }

/-- `go()`: fire `do_login`, entering `login`. -/
def authGo (tr : Nat → Delivery) (s : OpState) : OpState :=
  runLogin tr s

/-- A whole execution: construct with `retries`, call `go()`, let the
transport answer every issued POST. -/
def runAuthOperation (tr : Nat → Delivery) (retries : Int) : OpState :=
  authGo tr (initOpState retries)

/-! ## The entity creation operation (`CreateEntityOperation`) -/

/-- Python `dict.pop(key)` on an association list with unique keys:
the bound value and the dict without that binding, or `none` when the
key is absent (a `KeyError` at the call site). -/
def popAssoc : List (String × PyVal) → String → Option (PyVal × List (String × PyVal))
  | [], _ => none
  | (k, v) :: rest, key =>
      if k = key then some (v, rest)
      else
        match popAssoc rest key with
        | none => none
        | some (v2, rest2) => some (v2, (k, v) :: rest2)

/-- Python `isinstance(x, hszinc.Ref)`. -/
def isinstRef : PyVal → Bool
  | PyVal.ref _ => true
  | _ => false

/-- Python attribute access `x.name` as used on an id value: only a
`Ref` has it; anything else raises `AttributeError`. -/
def refNameAttr : PyVal → Except PyError PyVal
  | PyVal.ref n => Except.ok n
  | _ => Except.error (PyError.attributeError "name")

/-- Python `e_id.split('.')[-1]`: the trailing dot-separated segment
of a string; a non-string has no `split` attribute. -/
def strSplitLastDot : PyVal → Except PyError PyVal
  | PyVal.str s => Except.ok (PyVal.str ⟨(splitAllChar '.' s.data).getLastD []⟩)
  | _ => Except.error (PyError.attributeError "split")

/-- `_preprocess_entity` (widesky.py lines 191-201), value-level: the
non-dict guard raising `TypeError`, the copy, `e.pop('id')`, the
`isinstance(e, hszinc.Ref)` test — written on the dict copy `e`
exactly as the source has it, not on `e_id` — the trailing-segment
rule for dotted ids, and the rewrite `e['id'] = hszinc.Ref(e_id)`
(appended last, as a fresh key is in insertion order). -/
def preprocessEntity (e : PyVal) : Except PyError PyVal :=
  match e with
  | PyVal.dict kvs =>
      match popAssoc kvs "id" with
      | none => Except.error (PyError.keyError "id")
      | some (eId0, rest) =>
          match (if isinstRef (PyVal.dict rest) then refNameAttr eId0 else Except.ok eId0) with
          | Except.error err => Except.error err
          | Except.ok eId1 =>
              match pyIn "." eId1 with
              | Except.error err => Except.error err
              | Except.ok hasDot =>
                  match (if hasDot then strSplitLastDot eId1 else Except.ok eId1) with
                  | Except.error err => Except.error err
                  | Except.ok eId2 => Except.ok (PyVal.dict (rest ++ [("id", PyVal.ref eId2)]))
  | v => Except.error (PyError.typeError (pyValRepr v ++ " is not a dict"))

/-- States of the `CreateEntityOperation` Fysom machine (lines
174-183). -/
inductive CSt where
  | init
  | create
  | done
deriving DecidableEq, Repr

/-- What `session.create` delivers to the `_on_read` callback: the
created-entity representation or an `AsynchronousException`. -/
inductive CreateDelivery where
  | result (v : PyVal)
  | asyncExc (e : PyError)

/-- Observable state of one `CreateEntityOperation` instance:
the Fysom state, the delivered result slot, the handler fire count and
one-shot guard, and the normalized batch passed to `session.create`
(`none` while no network call has been made). -/
structure CreateOpState where
  fsm : CSt
  resultSlot : Option OpOutcome
  handlerFires : Nat
  doneFlag : Bool
  created : Option (List PyVal)

/-- Modelled from the spec: `HaystackOperation._done` for the entity
creation operation (same base class contract as `opDone`): one-shot
exactly-once completion with a guard against a second delivery. -/
def createOpDone (s : CreateOpState) (r : OpOutcome) : CreateOpState :=
  if s.doneFlag then { s with fsm := CSt.done }
  else { s with
    fsm := CSt.done
    doneFlag := true
    resultSlot := some r
    handlerFires := s.handlerFires + 1 }

/-- Modelled from the spec: `EntityRetrieveOperation._on_read`
(`pyhaystack/client/ops/entity.py`, not under src).  Per spec section
4.3, on receiving the response the operation transitions to `done`
(via `read_done` for a result, via the `exception` transition for an
`AsynchronousException`) and delivers through the completion
contract. -/
def entityOnRead (d : CreateDelivery) (s : CreateOpState) : CreateOpState :=
  match d with
  | CreateDelivery.result v => createOpDone s (OpOutcome.success v)
  | CreateDelivery.asyncExc e => createOpDone s (OpOutcome.failure e)

/-- The operation state right after `__init__`. -/
def initCreateOpState : CreateOpState :=
  { fsm := CSt.init
    resultSlot := none
    handlerFires := 0
    doneFlag := false
    created := none }

/-- `list(map(_preprocess_entity, self._new_entities))`: eager
left-to-right traversal, the first raised exception aborting it. -/
def mapPreprocess : List PyVal → Except PyError (List PyVal)
  | [] => Except.ok []
  | e :: es =>
      match preprocessEntity e with
      | Except.error err => Except.error err
      | Except.ok e2 =>
          match mapPreprocess es with
          | Except.error err => Except.error err
          | Except.ok es2 => Except.ok (e2 :: es2)

/-- `CreateEntityOperation.go` (lines 185-203) and the rest of the
execution: fire `send_create`, preprocess every entity with
`list(map(_preprocess_entity, ...))` — `go` has no try/except, so a
preprocessing exception propagates to `go`'s caller, returned here as
`some error` in the second component with the machine stuck in
`create` — then submit the batch via `session.create` and let the
delivery `d` reach `_on_read`. -/
def createEntityGo (entities : List PyVal) (d : CreateDelivery) :
    CreateOpState × Option PyError :=
  match mapPreprocess entities with
  | Except.error e => ({ initCreateOpState with fsm := CSt.create }, some e)
  | Except.ok es =>
      (entityOnRead d { initCreateOpState with fsm := CSt.create, created := some es }, none)

/-! ## Heap model of `_preprocess_entity` for the frame property

The value-level `preprocessEntity` cannot express "the caller's
original entity mappings are never mutated", so the same source lines
are embedded once more against an explicit store of mutable dict
objects: `e.copy()` allocates a fresh cell, and `e.pop` /
`e['id'] = ...` mutate only that fresh cell. -/

/-- A mutable dict object: its current key/value bindings. -/
abbrev DictObj := List (String × PyVal)

/-- The store of dict objects; an address is an index into it. -/
structure Heap where
  cells : List DictObj

/-- Address of a dict object in the store. -/
abbrev Addr := Nat

/-- Read a cell (out-of-range reads see an empty dict; such addresses
are never produced by allocation). -/
def Heap.get (h : Heap) (a : Addr) : DictObj :=
  h.cells.getD a []

/-- Allocate a fresh cell holding `d`; its address is the old store
length. -/
def Heap.alloc (h : Heap) (d : DictObj) : Heap :=
  { cells := h.cells ++ [d] }

/-- Overwrite the cell at `a`. -/
def Heap.set (h : Heap) (a : Addr) (d : DictObj) : Heap :=
  { cells := h.cells.set a d }

/-- An argument to `_preprocess_entity` in the heap model: an
immediate non-dict value, or the address of a dict object. -/
inductive HVal where
  | imm (v : PyVal)
  | addr (a : Addr)

/-- `_preprocess_entity` against the store: reject non-dicts, copy the
entity into a fresh cell, pop `id` from the copy, run the (dead)
`isinstance(e, hszinc.Ref)` branch on the copy, apply the
trailing-segment rule, and write the rewritten `id` back into the
copy.  Every mutation targets the fresh cell `b`; the result is the
store after the call and the address of the normalized copy or the
raised error. -/
def preprocessEntityH (h : Heap) (e : HVal) : Heap × Except PyError Addr :=
  match e with
  | HVal.imm v => (h, Except.error (PyError.typeError (pyValRepr v ++ " is not a dict")))
  | HVal.addr a =>
      let b : Addr := h.cells.length
      let h1 := h.alloc (h.get a)
      match popAssoc (h1.get b) "id" with
      | none => (h1, Except.error (PyError.keyError "id"))
      | some (eId0, rest) =>
          let h2 := h1.set b rest
          match (if isinstRef (PyVal.dict (h2.get b)) then refNameAttr eId0
                 else Except.ok eId0) with
          | Except.error err => (h2, Except.error err)
          | Except.ok eId1 =>
              match pyIn "." eId1 with
              | Except.error err => (h2, Except.error err)
              | Except.ok hasDot =>
                  match (if hasDot then strSplitLastDot eId1 else Except.ok eId1) with
                  | Except.error err => (h2, Except.error err)
                  | Except.ok eId2 =>
                      (h2.set b (h2.get b ++ [("id", PyVal.ref eId2)]), Except.ok b)

/-- `list(map(_preprocess_entity, entities))` against the store:
entities processed left to right, the first raised error stopping the
traversal (as the eager `list(...)` does). -/
def preprocessBatchH (h : Heap) : List HVal → Heap × Except PyError (List Addr)
  | [] => (h, Except.ok [])
  | e :: es =>
      match preprocessEntityH h e with
      | (h1, Except.error err) => (h1, Except.error err)
      | (h1, Except.ok b) =>
          match preprocessBatchH h1 es with
          | (h2, Except.error err) => (h2, Except.error err)
          | (h2, Except.ok bs) => (h2, Except.ok (b :: bs))

/-- Pure counterpart of the heap steps of `preprocessEntityH` on one
dict content: the final content of the fresh copy, and success or the
raised error.  Used to state the closed form of `preprocessEntityH`. -/
def normDictH (d : DictObj) : DictObj × Except PyError Unit :=
  match popAssoc d "id" with
  | none => (d, Except.error (PyError.keyError "id"))
  | some (eId0, rest) =>
      match (if isinstRef (PyVal.dict rest) then refNameAttr eId0 else Except.ok eId0) with
      | Except.error err => (rest, Except.error err)
      | Except.ok eId1 =>
          match pyIn "." eId1 with
          | Except.error err => (rest, Except.error err)
          | Except.ok hasDot =>
              match (if hasDot then strSplitLastDot eId1 else Except.ok eId1) with
              | Except.error err => (rest, Except.error err)
              | Except.ok eId2 => (rest ++ [("id", PyVal.ref eId2)], Except.ok ())

/-- One store extends another: it is at least as long and agrees on
every address of the shorter one. -/
def Heap.ext2 (f g : Heap) : Prop :=
  f.cells.length ≤ g.cells.length ∧ ∀ i, i < f.cells.length → g.get i = f.get i

/-! ## Concrete fixtures used by the witness theorems -/

/-- A complete decoded auth payload. -/
def kvsGood : List (String × PyVal) :=
  [("token_type", PyVal.str "Bearer"), ("access_token", PyVal.str "abc123"),
   ("expires_in", PyVal.int 3600)]

/-- A decoded auth payload lacking `access_token`. -/
def kvsMissing : List (String × PyVal) :=
  [("token_type", PyVal.str "Bearer"), ("expires_in", PyVal.int 3600)]

/-- A well-formed authentication response: JSON media type with a
charset parameter, and a body decoding to a payload with all three
mandatory fields. -/
def respGood : Response :=
  { headers := [("Content-Type", "application/json; charset=utf-8")]
    decodeBody := fun _ => Except.ok (PyVal.dict kvsGood) }

/-- A response whose otherwise well-formed JSON payload lacks
`access_token`. -/
def respMissing : Response :=
  { headers := [("Content-Type", "application/json")]
    decodeBody := fun _ => Except.ok (PyVal.dict kvsMissing) }

/-- A transport whose every attempt fails with one fixed captured
error. -/
def trConstFail : Nat → Delivery := fun _ => Delivery.asyncExc (PyError.valueError "boom")

/-- A transport whose every attempt succeeds with `respGood`. -/
def trGood : Nat → Delivery := fun _ => Delivery.response respGood

/-- A transport whose every attempt returns the deficient reply. -/
def trMissing : Nat → Delivery := fun _ => Delivery.response respMissing

/-- A transport whose n-th attempt fails with a distinct captured
error. -/
def trFailEach : Nat → Delivery := fun n =>
  Delivery.asyncExc (PyError.valueError ("boom " ++ toString n))

/-- The errors `trFailEach` delivers. -/
def errAt : Nat → PyError := fun n => PyError.valueError ("boom " ++ toString n)

/-- A transport that fails twice, then succeeds. -/
def trFailTwice : Nat → Delivery := fun n =>
  if n < 2 then Delivery.asyncExc (errAt n) else Delivery.response respGood

/-- A store holding one caller-owned entity dict. -/
def heapW : Heap := { cells := [[("site", PyVal.str "x"), ("id", PyVal.str "a.b.c")]] }

/-- The batch referring to that entity. -/
def batchW : List HVal := [HVal.addr 0]

/-- The normalized content produced from `heapW`'s entity. -/
def normW : DictObj := [("site", PyVal.str "x"), ("id", PyVal.ref (PyVal.str "c"))]

/-- The store after preprocessing `batchW` once. -/
def heap1W : Heap :=
  { cells := [[("site", PyVal.str "x"), ("id", PyVal.str "a.b.c")], normW] }

/-- The store after preprocessing `batchW` twice. -/
def heap2W : Heap :=
  { cells := [[("site", PyVal.str "x"), ("id", PyVal.str "a.b.c")], normW, normW] }

/-- Consecutive addresses starting at `s`. -/
def addrSeq : Nat → Nat → List Addr
  | _, 0 => []
  | s, n + 1 => s :: addrSeq (s + 1) n

/-- The batch outcome `preprocessBatchH` is forced to produce, computed
purely from the contents the batch's addresses hold in `h`: the list
of normalized dict contents, or the first raised error. -/
def pureOutcome (h : Heap) : List HVal → Except PyError (List DictObj)
  | [] => Except.ok []
  | HVal.imm v :: _ => Except.error (PyError.typeError (pyValRepr v ++ " is not a dict"))
  | HVal.addr a :: es =>
      match (normDictH (h.get a)).2 with
      | Except.error err => Except.error err
      | Except.ok _ =>
          match pureOutcome h es with
          | Except.error err => Except.error err
          | Except.ok ds => Except.ok ((normDictH (h.get a)).1 :: ds)

/-! ## Helper lemmas -/

/-- Setting the freshly appended cell rewrites only it. -/
theorem list_set_append_self {α : Type} (l : List α) (d x : α) :
    (l ++ [d]).set l.length x = l ++ [x] := by
  induction l with
  | nil => rfl
  | cons a as ih =>
      show a :: (as ++ [d]).set as.length x = a :: (as ++ [x])
      rw [ih]

/-- Reading the freshly appended cell. -/
theorem list_getD_append_self {α : Type} (l : List α) (d x : α) :
    (l ++ [d]).getD l.length x = d := by
  rw [List.getD_append_right l [d] x l.length (Nat.le_refl _)]
  simp

/-- Closed form of the heap-level `_preprocess_entity` on a dict
address: it allocates exactly one fresh cell, leaves every existing
cell alone, and the fresh cell ends with the content `normDictH`
computes from the input content. -/
theorem preprocessEntityH_addr (h : Heap) (a : Addr) :
    preprocessEntityH h (HVal.addr a) =
      ({ cells := h.cells ++ [(normDictH (h.get a)).1] },
       match (normDictH (h.get a)).2 with
       | Except.ok _ => Except.ok h.cells.length
       | Except.error e => Except.error e) := by
  have halloc : Heap.get (h.alloc (h.get a)) h.cells.length = h.get a := by
    simp only [Heap.alloc, Heap.get]
    exact list_getD_append_self _ _ _
  simp only [preprocessEntityH, normDictH, halloc]
  cases hpop : popAssoc (h.get a) "id" with
  | none => simp [Heap.alloc]
  | some p =>
      obtain ⟨eId0, rest⟩ := p
      have hset : Heap.set (h.alloc (h.get a)) h.cells.length rest =
          ({ cells := h.cells ++ [rest] } : Heap) := by
        simp only [Heap.alloc, Heap.set]
        rw [list_set_append_self]
      have hget2 : Heap.get ({ cells := h.cells ++ [rest] } : Heap) h.cells.length = rest :=
        list_getD_append_self _ _ _
      simp only [hset, hget2, isinstRef, Bool.false_eq_true, if_false]
      cases hin : pyIn "." eId0 with
      | error err => simp [hin]
      | ok hasDot =>
          cases hasDot with
          | true =>
              cases hsplit : strSplitLastDot eId0 with
              | error err => simp [hin, hsplit]
              | ok eId2 => simp [hin, hsplit, Heap.set, list_set_append_self]
          | false => simp [hin, Heap.set, list_set_append_self]

/-- `pureOutcome` only looks at the contents the batch's addresses
hold, so stores agreeing there give the same outcome. -/
theorem pureOutcome_congr (h g : Heap) (es : List HVal)
    (hag : ∀ e ∈ es, ∀ a, e = HVal.addr a → g.get a = h.get a) :
    pureOutcome g es = pureOutcome h es := by
  induction es with
  | nil => rfl
  | cons e es ih =>
      cases e with
      | imm v => rfl
      | addr a =>
          have ha : g.get a = h.get a := hag _ (List.mem_cons_self _ _) a rfl
          have hrest : ∀ e ∈ es, ∀ a, e = HVal.addr a → g.get a = h.get a :=
            fun e he => hag e (List.mem_cons_of_mem _ he)
          simp only [pureOutcome, ha, ih hrest]

/-- Successful runs of the heap-level batch preprocessing are exactly
described by `pureOutcome`: the store gains one fresh cell per entity,
holding the normalized contents, at consecutive addresses. -/
theorem preprocessBatchH_ok (es : List HVal) (h : Heap) (ds : List DictObj)
    (hpure : pureOutcome h es = Except.ok ds)
    (haddr : ∀ e ∈ es, ∀ a, e = HVal.addr a → a < h.cells.length) :
    preprocessBatchH h es = ({ cells := h.cells ++ ds },
      Except.ok (addrSeq h.cells.length ds.length)) := by
  induction es generalizing h ds with
  | nil =>
      cases hpure
      simp [preprocessBatchH, addrSeq]
  | cons e es ih =>
      cases e with
      | imm v => simp [pureOutcome] at hpure
      | addr a =>
          simp only [pureOutcome] at hpure
          cases hnd : (normDictH (h.get a)).2 with
          | error err => rw [hnd] at hpure; cases hpure
          | ok u =>
              rw [hnd] at hpure
              cases hrec : pureOutcome h es with
              | error err => rw [hrec] at hpure; cases hpure
              | ok ds2 =>
                  rw [hrec] at hpure
                  cases hpure
                  have hfresh : pureOutcome ({ cells := h.cells ++ [(normDictH (h.get a)).1] } : Heap) es
                      = Except.ok ds2 := by
                    rw [pureOutcome_congr h _ es]
                    · exact hrec
                    · intro e he a2 hea
                      have h2 := haddr e (List.mem_cons_of_mem _ he) a2 hea
                      simp only [Heap.get]
                      exact List.getD_append _ _ _ _ h2
                  have haddr2 : ∀ e ∈ es, ∀ a2, e = HVal.addr a2 →
                      a2 < ({ cells := h.cells ++ [(normDictH (h.get a)).1] } : Heap).cells.length := by
                    intro e he a2 hea
                    have h3 := haddr e (List.mem_cons_of_mem _ he) a2 hea
                    show a2 < (h.cells ++ [(normDictH (h.get a)).1]).length
                    simp only [List.length_append, List.length_singleton]
                    exact Nat.lt_succ_of_lt h3
                  have hstep := preprocessEntityH_addr h a
                  rw [hnd] at hstep
                  simp only [preprocessBatchH, hstep, ih _ _ hfresh haddr2]
                  simp [addrSeq, List.append_assoc]

/-- Failing pure outcomes force the heap-level batch run to fail with
the same error. -/
theorem preprocessBatchH_err (es : List HVal) (h : Heap) (err : PyError)
    (hpure : pureOutcome h es = Except.error err)
    (haddr : ∀ e ∈ es, ∀ a, e = HVal.addr a → a < h.cells.length) :
    ∃ hE, preprocessBatchH h es = (hE, Except.error err) := by
  induction es generalizing h with
  | nil => cases hpure
  | cons e es ih =>
      cases e with
      | imm v =>
          simp only [pureOutcome] at hpure
          cases hpure
          exact ⟨h, by simp [preprocessBatchH, preprocessEntityH]⟩
      | addr a =>
          simp only [pureOutcome] at hpure
          cases hnd : (normDictH (h.get a)).2 with
          | error e2 =>
              rw [hnd] at hpure
              cases hpure
              have hstep := preprocessEntityH_addr h a
              rw [hnd] at hstep
              exact ⟨{ cells := h.cells ++ [(normDictH (h.get a)).1] },
                by simp [preprocessBatchH, hstep]⟩
          | ok u =>
              rw [hnd] at hpure
              cases hrec : pureOutcome h es with
              | ok ds2 => rw [hrec] at hpure; cases hpure
              | error e2 =>
                  rw [hrec] at hpure
                  cases hpure
                  have hstep := preprocessEntityH_addr h a
                  rw [hnd] at hstep
                  have hfresh : pureOutcome ({ cells := h.cells ++ [(normDictH (h.get a)).1] } : Heap) es
                      = Except.error err := by
                    rw [pureOutcome_congr h _ es]
                    · exact hrec
                    · intro e he a2 hea
                      have h2 := haddr e (List.mem_cons_of_mem _ he) a2 hea
                      simp only [Heap.get]
                      exact List.getD_append _ _ _ _ h2
                  have haddr2 : ∀ e ∈ es, ∀ a2, e = HVal.addr a2 →
                      a2 < ({ cells := h.cells ++ [(normDictH (h.get a)).1] } : Heap).cells.length := by
                    intro e he a2 hea
                    have h3 := haddr e (List.mem_cons_of_mem _ he) a2 hea
                    show a2 < (h.cells ++ [(normDictH (h.get a)).1]).length
                    simp only [List.length_append, List.length_singleton]
                    exact Nat.lt_succ_of_lt h3
                  obtain ⟨hE, hrun⟩ := ih _ hfresh haddr2
                  exact ⟨hE, by simp [preprocessBatchH, hstep, hrun]⟩

/-- Reading back consecutively appended cells returns their contents,
whatever sits before or after them. -/
theorem map_addrSeq_getD {α : Type} (ds : List α) (p t : List α) (x : α) :
    (addrSeq p.length ds.length).map (fun a => ((p ++ ds) ++ t).getD a x) = ds := by
  induction ds generalizing p with
  | nil => rfl
  | cons d dsr ih =>
      show ((p ++ d :: dsr) ++ t).getD p.length x ::
        (addrSeq (p.length + 1) dsr.length).map (fun a => ((p ++ d :: dsr) ++ t).getD a x)
        = d :: dsr
      have hhead : ((p ++ d :: dsr) ++ t).getD p.length x = d := by
        rw [List.append_assoc, List.getD_append_right p _ x p.length (Nat.le_refl _)]
        simp
      have hlist : (p ++ d :: dsr) ++ t = ((p ++ [d]) ++ dsr) ++ t := by simp
      have hlen : p.length + 1 = (p ++ [d]).length := by simp
      rw [hhead, hlist, hlen, ih (p ++ [d])]

/-! ## Field lemmas for the completion guard and the failure step -/

/-- Completing a not-yet-completed operation fires the handler once
and stores the result. -/
theorem opDone_fresh (s : OpState) (r : OpOutcome) (h : s.doneFlag = false) :
    opDone s r =
      { s with
        fsm := St.done
        doneFlag := true
        resultSlot := some r
        handlerFires := s.handlerFires + 1 } := by
  rw [opDone, h]
  simp

/-- A second completion attempt is stopped by the guard: no handler
fires, the stored result stays. -/
theorem opDone_guarded (s : OpState) (r : OpOutcome) (h : s.doneFlag = true) :
    opDone s r = { s with fsm := St.done } := by
  rw [opDone, h]
  simp

theorem opDone_fsm (s : OpState) (r : OpOutcome) : (opDone s r).fsm = St.done := by
  rw [opDone]
  split <;> rfl

theorem opDone_retries (s : OpState) (r : OpOutcome) : (opDone s r).retries = s.retries := by
  rw [opDone]
  split <;> rfl

theorem opDone_trace (s : OpState) (r : OpOutcome) :
    (opDone s r).retriesTrace = s.retriesTrace := by
  rw [opDone]
  split <;> rfl

theorem failedStep_doneFlag (s : OpState) : (failedStep s).doneFlag = s.doneFlag := by
  rw [failedStep]
  split <;> rfl

theorem failedStep_handlerFires (s : OpState) :
    (failedStep s).handlerFires = s.handlerFires := by
  rw [failedStep]
  split <;> rfl

theorem failedStep_attempts (s : OpState) : (failedStep s).attempts = s.attempts + 1 := by
  rw [failedStep]
  split <;> rfl

theorem failedStep_resultSlot (s : OpState) :
    (failedStep s).resultSlot = s.resultSlot := by
  rw [failedStep]
  split <;> rfl

theorem failedStep_retries_pos (s : OpState) (hr : 0 < s.retries) :
    (failedStep s).retries = s.retries - 1 := by
  rw [failedStep, if_pos hr]

theorem failedStep_retries_nonpos (s : OpState) (hr : ¬ 0 < s.retries) :
    (failedStep s).retries = s.retries := by
  rw [failedStep, if_neg hr]

theorem failedStep_trace_pos (s : OpState) (hr : 0 < s.retries) :
    (failedStep s).retriesTrace = s.retriesTrace ++ [s.retries - 1] := by
  rw [failedStep, if_pos hr]

theorem failedStep_trace_nonpos (s : OpState) (hr : ¬ 0 < s.retries) :
    (failedStep s).retriesTrace = s.retriesTrace ++ [s.retries] := by
  rw [failedStep, if_neg hr]

/-! ## Step lemmas for `runLogin` -/

/-- A successful attempt completes through `login_done` and
`_do_done`. -/
theorem runLogin_ok (tr : Nat → Delivery) (s : OpState) (reply : PyVal)
    (hok : onLogin (tr s.attempts) = LoginStep.loginDone reply) :
    runLogin tr s =
      opDone { s with fsm := St.login, attempts := s.attempts + 1 } (OpOutcome.success reply) := by
  rw [runLogin]
  simp only [hok]

/-- A failed attempt enters `failed`; `_do_fail_retry` either re-runs
`login` on the decremented budget or aborts to `done` with the
failure. -/
theorem runLogin_exc (tr : Nat → Delivery) (s : OpState) (e : PyError)
    (hfail : onLogin (tr s.attempts) = LoginStep.exception e) :
    runLogin tr s =
      if 0 < s.retries then runLogin tr (failedStep s)
      else opDone (failedStep s) (OpOutcome.failure e) := by
  rw [runLogin]
  simp only [hfail]
  by_cases hr : 0 < s.retries
  · rw [if_pos hr]
    have hd : doFailRetry s.retries = (s.retries - 1, FailAction.retry) := by
      simp [doFailRetry, hr]
    split
    case _ r2 hp =>
      rw [hd] at hp
      cases hp
      rw [failedStep, if_pos hr]
    case _ r2 hp =>
      rw [hd] at hp
      cases hp
  · rw [if_neg hr]
    have hd : doFailRetry s.retries = (s.retries, FailAction.abort) := by
      simp [doFailRetry, hr]
    split
    case _ r2 hp =>
      rw [hd] at hp
      cases hp
    case _ r2 hp =>
      rw [hd] at hp
      cases hp
      rw [failedStep, if_neg hr]

/-! ## Behaviour of whole login runs -/

theorem opDone_doneFlag (s : OpState) (r : OpOutcome) : (opDone s r).doneFlag = true := by
  rw [opDone]
  by_cases h : s.doneFlag
  · rw [if_pos h]
    exact h
  · rw [if_neg h]

theorem opDone_handlerFires (s : OpState) (r : OpOutcome) :
    (opDone s r).handlerFires = if s.doneFlag then s.handlerFires else s.handlerFires + 1 := by
  rw [opDone]
  split <;> simp_all

theorem opDone_resultSlot (s : OpState) (r : OpOutcome) :
    (opDone s r).resultSlot = if s.doneFlag then s.resultSlot else some r := by
  rw [opDone]
  split <;> simp_all

theorem opDone_attempts (s : OpState) (r : OpOutcome) : (opDone s r).attempts = s.attempts := by
  rw [opDone]
  split <;> rfl

/-- Whatever the transport does, a login run reaches `done`; a fresh
run fires the completion handler exactly once and stores a result,
while a run started on an already-completed operation is stopped by
the guard: no extra fire, stored result untouched. -/
theorem runLogin_once (tr : Nat → Delivery) :
    ∀ k (s : OpState), s.retries.toNat = k →
      (runLogin tr s).fsm = St.done ∧
      (s.doneFlag = false →
        (runLogin tr s).handlerFires = s.handlerFires + 1 ∧
        (runLogin tr s).doneFlag = true ∧
        ∃ out, (runLogin tr s).resultSlot = some out) ∧
      (s.doneFlag = true →
        (runLogin tr s).handlerFires = s.handlerFires ∧
        (runLogin tr s).doneFlag = true ∧
        (runLogin tr s).resultSlot = s.resultSlot) := by
  intro k
  induction k with
  | zero =>
      intro s hk
      cases hstep : onLogin (tr s.attempts) with
      | loginDone reply =>
          rw [runLogin_ok tr s reply hstep]
          refine ⟨opDone_fsm _ _, fun hdf => ?_, fun hdf => ?_⟩
          · simp [opDone_handlerFires, opDone_doneFlag, opDone_resultSlot, hdf]
          · simp [opDone_handlerFires, opDone_doneFlag, opDone_resultSlot, hdf]
      | exception e =>
          have hr : ¬ 0 < s.retries := by omega
          rw [runLogin_exc tr s e hstep, if_neg hr]
          refine ⟨opDone_fsm _ _, fun hdf => ?_, fun hdf => ?_⟩
          · simp [opDone_handlerFires, opDone_doneFlag, opDone_resultSlot,
              failedStep_doneFlag, failedStep_handlerFires, failedStep_resultSlot, hdf]
          · simp [opDone_handlerFires, opDone_doneFlag, opDone_resultSlot,
              failedStep_doneFlag, failedStep_handlerFires, failedStep_resultSlot, hdf]
  | succ k ih =>
      intro s hk
      cases hstep : onLogin (tr s.attempts) with
      | loginDone reply =>
          rw [runLogin_ok tr s reply hstep]
          refine ⟨opDone_fsm _ _, fun hdf => ?_, fun hdf => ?_⟩
          · simp [opDone_handlerFires, opDone_doneFlag, opDone_resultSlot, hdf]
          · simp [opDone_handlerFires, opDone_doneFlag, opDone_resultSlot, hdf]
      | exception e =>
          have hr : 0 < s.retries := by omega
          rw [runLogin_exc tr s e hstep, if_pos hr]
          have hk2 : (failedStep s).retries.toNat = k := by
            rw [failedStep_retries_pos s hr]
            omega
          have h3 := ih (failedStep s) hk2
          rw [failedStep_doneFlag, failedStep_handlerFires, failedStep_resultSlot] at h3
          exact h3

/-- A run in which every attempt fails: `fsm` ends `done`, the attempt
counter advances by the retry budget plus one, the handler fires once,
and the stored failure is the last attempt's error. -/
theorem runLogin_allFail (tr : Nat → Delivery) (es : Nat → PyError)
    (hfail : ∀ n, onLogin (tr n) = LoginStep.exception (es n)) :
    ∀ k (s : OpState), s.retries.toNat = k → s.doneFlag = false →
      (runLogin tr s).fsm = St.done ∧
      (runLogin tr s).attempts = s.attempts + k + 1 ∧
      (runLogin tr s).handlerFires = s.handlerFires + 1 ∧
      (runLogin tr s).doneFlag = true ∧
      (runLogin tr s).resultSlot = some (OpOutcome.failure (es (s.attempts + k))) := by
  intro k
  induction k with
  | zero =>
      intro s hk hdf
      have hr : ¬ 0 < s.retries := by omega
      rw [runLogin_exc tr s (es s.attempts) (hfail s.attempts), if_neg hr]
      refine ⟨opDone_fsm _ _, ?_, ?_, opDone_doneFlag _ _, ?_⟩
      · rw [opDone_attempts, failedStep_attempts]
      · simp [opDone_handlerFires, failedStep_doneFlag, failedStep_handlerFires, hdf]
      · simp [opDone_resultSlot, failedStep_doneFlag, failedStep_resultSlot, hdf]
  | succ k ih =>
      intro s hk hdf
      have hr : 0 < s.retries := by omega
      rw [runLogin_exc tr s (es s.attempts) (hfail s.attempts), if_pos hr]
      have hk2 : (failedStep s).retries.toNat = k := by
        rw [failedStep_retries_pos s hr]
        omega
      have h3 := ih (failedStep s) hk2 (by rw [failedStep_doneFlag]; exact hdf)
      rw [failedStep_handlerFires, failedStep_attempts] at h3
      obtain ⟨h3a, h3b, h3c, h3d, h3e⟩ := h3
      refine ⟨h3a, by omega, h3c, h3d, ?_⟩
      rw [h3e]
      have harith : s.attempts + 1 + k = s.attempts + (k + 1) := by omega
      rw [harith]

/-- A run whose first attempts up to `m` fail and whose attempt `m`
succeeds, within the retry budget: the machine reaches `done` after
exactly `m + 1` attempts carrying the successful reply. -/
theorem runLogin_succeedAt (tr : Nat → Delivery) (es : Nat → PyError) (m : Nat)
    (reply : PyVal)
    (hok : onLogin (tr m) = LoginStep.loginDone reply)
    (hf : ∀ n, n < m → onLogin (tr n) = LoginStep.exception (es n)) :
    ∀ d (s : OpState), s.doneFlag = false → m = s.attempts + d → d ≤ s.retries.toNat →
      (runLogin tr s).fsm = St.done ∧
      (runLogin tr s).attempts = m + 1 ∧
      (runLogin tr s).handlerFires = s.handlerFires + 1 ∧
      (runLogin tr s).doneFlag = true ∧
      (runLogin tr s).resultSlot = some (OpOutcome.success reply) := by
  intro d
  induction d with
  | zero =>
      intro s hdf hm hd
      have hm0 : m = s.attempts := by omega
      subst hm0
      rw [runLogin_ok tr s reply hok]
      refine ⟨opDone_fsm _ _, ?_, ?_, opDone_doneFlag _ _, ?_⟩
      · rw [opDone_attempts]
      · simp [opDone_handlerFires, hdf]
      · simp [opDone_resultSlot, hdf]
  | succ d ih =>
      intro s hdf hm hd
      have hfn : onLogin (tr s.attempts) = LoginStep.exception (es s.attempts) :=
        hf s.attempts (by omega)
      have hr : 0 < s.retries := by omega
      rw [runLogin_exc tr s (es s.attempts) hfn, if_pos hr]
      have h3 := ih (failedStep s) (by rw [failedStep_doneFlag]; exact hdf)
        (by rw [failedStep_attempts]; omega)
        (by rw [failedStep_retries_pos s hr]; omega)
      rw [failedStep_handlerFires] at h3
      exact h3

/-- Starting from a nonnegative retry budget and a trace of
nonnegative recorded values, a whole run keeps the counter and every
recorded value nonnegative. -/
theorem runLogin_nonneg (tr : Nat → Delivery) :
    ∀ k (s : OpState), s.retries.toNat = k → 0 ≤ s.retries →
      (∀ x ∈ s.retriesTrace, 0 ≤ x) →
      0 ≤ (runLogin tr s).retries ∧ ∀ x ∈ (runLogin tr s).retriesTrace, 0 ≤ x := by
  intro k
  induction k with
  | zero =>
      intro s hk hnn htr
      cases hstep : onLogin (tr s.attempts) with
      | loginDone reply =>
          rw [runLogin_ok tr s reply hstep, opDone_retries, opDone_trace]
          exact ⟨hnn, htr⟩
      | exception e =>
          have hr : ¬ 0 < s.retries := by omega
          rw [runLogin_exc tr s e hstep, if_neg hr, opDone_retries, opDone_trace,
            failedStep_retries_nonpos s hr, failedStep_trace_nonpos s hr]
          refine ⟨hnn, ?_⟩
          intro x hx
          rcases List.mem_append.mp hx with hx1 | hx2
          · exact htr x hx1
          · rw [List.mem_singleton.mp hx2]
            exact hnn
  | succ k ih =>
      intro s hk hnn htr
      cases hstep : onLogin (tr s.attempts) with
      | loginDone reply =>
          rw [runLogin_ok tr s reply hstep, opDone_retries, opDone_trace]
          exact ⟨hnn, htr⟩
      | exception e =>
          have hr : 0 < s.retries := by omega
          rw [runLogin_exc tr s e hstep, if_pos hr]
          refine ih (failedStep s) ?_ ?_ ?_
          · rw [failedStep_retries_pos s hr]
            omega
          · rw [failedStep_retries_pos s hr]
            omega
          · rw [failedStep_trace_pos s hr]
            intro x hx
            rcases List.mem_append.mp hx with hx1 | hx2
            · exact htr x hx1
            · rw [List.mem_singleton.mp hx2]
              omega

/-- The post-completion `exception` event cannot re-fire the handler:
whether `_do_fail_retry` retries (a guarded re-run) or aborts (a
guarded second completion), the fire count stays put. -/
theorem fireException_guarded (tr : Nat → Delivery) (s : OpState) (e : PyError)
    (hd : s.doneFlag = true) :
    (fireException tr s e).handlerFires = s.handlerFires := by
  rw [fireException]
  split
  case _ r2 hp =>
      have h3 := (runLogin_once tr ({ s with
        fsm := St.failed
        retries := r2
        retriesTrace := s.retriesTrace ++ [r2] } : OpState).retries.toNat _ rfl).2.2 hd
      exact h3.1
  case _ r2 hp =>
      simp [opDone_handlerFires, hd]

/-! ## Entity creation lemmas -/

/-- A non-dict entity makes `_preprocess_entity` raise the guard's
`TypeError`. -/
theorem preprocessEntity_notDict (v : PyVal) (hv : v.isDict = false) :
    preprocessEntity v = Except.error (PyError.typeError (pyValRepr v ++ " is not a dict")) := by
  cases v with
  | dict kvs => simp [PyVal.isDict] at hv
  | str s => rfl
  | int n => rfl
  | ref n => rfl

/-- When every entity before the first non-dict preprocesses cleanly,
the traversal stops at the non-dict with its `TypeError`. -/
theorem mapPreprocess_notDict (pre post : List PyVal) (v : PyVal)
    (hpre : ∀ x ∈ pre, ∃ y, preprocessEntity x = Except.ok y) (hv : v.isDict = false) :
    mapPreprocess (pre ++ v :: post) =
      Except.error (PyError.typeError (pyValRepr v ++ " is not a dict")) := by
  induction pre with
  | nil => simp [mapPreprocess, preprocessEntity_notDict v hv]
  | cons x xs ih =>
      obtain ⟨y, hy⟩ := hpre x (List.mem_cons_self _ _)
      have ih2 := ih (fun z hz => hpre z (List.mem_cons_of_mem _ hz))
      simp [mapPreprocess, hy, ih2]

/-- A batch containing any non-dict entity always makes the traversal
raise (some) exception. -/
theorem mapPreprocess_err_of_notDict (batch : List PyVal)
    (hx : ∃ x ∈ batch, x.isDict = false) :
    ∃ err, mapPreprocess batch = Except.error err := by
  induction batch with
  | nil =>
      obtain ⟨x, hmem, hxd⟩ := hx
      cases hmem
  | cons b bs ih =>
      cases hpe : preprocessEntity b with
      | error err => exact ⟨err, by simp [mapPreprocess, hpe]⟩
      | ok y =>
          obtain ⟨x, hmem, hxd⟩ := hx
          rcases List.mem_cons.mp hmem with hb | hmem2
          · rw [← hb] at hpe
            rw [preprocessEntity_notDict x hxd] at hpe
            cases hpe
          · obtain ⟨err, herr⟩ := ih ⟨x, hmem2, hxd⟩
            exact ⟨err, by simp [mapPreprocess, hpe, herr]⟩

/-- `go` with a batch whose traversal raises: the exception propagates
to the caller, nothing was submitted, the handler never ran. -/
theorem createEntityGo_err (entities : List PyVal) (d : CreateDelivery) (err : PyError)
    (h : mapPreprocess entities = Except.error err) :
    createEntityGo entities d = ({ initCreateOpState with fsm := CSt.create }, some err) := by
  rw [createEntityGo]
  simp only [h]

/-- `go` with a batch that preprocesses cleanly: the batch is
submitted and `_on_read` completes the operation. -/
theorem createEntityGo_ok (entities : List PyVal) (d : CreateDelivery) (es : List PyVal)
    (h : mapPreprocess entities = Except.ok es) :
    createEntityGo entities d =
      (entityOnRead d { initCreateOpState with fsm := CSt.create, created := some es },
       none) := by
  rw [createEntityGo]
  simp only [h]

/-- A delivered create response, of either flavour, fires the guarded
completion exactly once on a fresh operation. -/
theorem entityOnRead_fires (d : CreateDelivery) (s : CreateOpState)
    (hdf : s.doneFlag = false) :
    (entityOnRead d s).handlerFires = s.handlerFires + 1 := by
  cases d with
  | result v =>
      rw [entityOnRead, createOpDone, hdf]
      simp
  | asyncExc e =>
      rw [entityOnRead, createOpDone, hdf]
      simp

/-- `runAuthOperation` is one `go()` on a freshly constructed
operation. -/
theorem runAuthOperation_eq (tr : Nat → Delivery) (r : Int) :
    runAuthOperation tr r = runLogin tr (initOpState r) := rfl

/-! ## Claim theorems -/

/-- C9: entity preprocessing in `CreateEntityOperation` operates on
shallow copies, so the caller's original entity dicts are never
mutated (every pre-existing store cell is untouched by either run),
and preprocessing the same batch twice produces identical normalized
output (the two runs' fresh cells hold equal contents). -/
theorem C9_frame_idempotent (h h1 h2 : Heap) (es : List HVal)
    (bs1 bs2 : List Addr)
    (haddr : ∀ e ∈ es, ∀ a, e = HVal.addr a → a < h.cells.length)
    (hrun1 : preprocessBatchH h es = (h1, Except.ok bs1))
    (hrun2 : preprocessBatchH h1 es = (h2, Except.ok bs2)) :
    (∀ i, i < h.cells.length → h1.get i = h.get i) ∧
    (∀ i, i < h.cells.length → h2.get i = h.get i) ∧
    bs1.map (fun b => h2.get b) = bs2.map (fun b => h2.get b) := by
  cases hpure : pureOutcome h es with
  | error err =>
      obtain ⟨hE, hx⟩ := preprocessBatchH_err es h err hpure haddr
      rw [hx] at hrun1
      injection hrun1 with hA hB
      cases hB
  | ok ds =>
      have hA := preprocessBatchH_ok es h ds hpure haddr
      rw [hA] at hrun1
      injection hrun1 with hh1 hbs1
      injection hbs1 with hbs1
      subst hh1
      subst hbs1
      have haddr2 : ∀ e ∈ es, ∀ a, e = HVal.addr a →
          a < ({ cells := h.cells ++ ds } : Heap).cells.length := by
        intro e he a hea
        have h3 := haddr e he a hea
        show a < (h.cells ++ ds).length
        rw [List.length_append]
        exact Nat.lt_of_lt_of_le h3 (Nat.le_add_right _ _)
      have hpure2 : pureOutcome ({ cells := h.cells ++ ds } : Heap) es = Except.ok ds := by
        rw [pureOutcome_congr h _ es]
        · exact hpure
        · intro e he a hea
          have h3 := haddr e he a hea
          show (h.cells ++ ds).getD a [] = h.cells.getD a []
          exact List.getD_append _ _ _ _ h3
      have hB := preprocessBatchH_ok es ({ cells := h.cells ++ ds } : Heap) ds hpure2 haddr2
      rw [hB] at hrun2
      injection hrun2 with hh2 hbs2
      injection hbs2 with hbs2
      subst hh2
      subst hbs2
      refine ⟨?_, ?_, ?_⟩
      · intro i hi
        show (h.cells ++ ds).getD i [] = h.cells.getD i []
        exact List.getD_append _ _ _ _ hi
      · intro i hi
        show ((h.cells ++ ds) ++ ds).getD i [] = h.cells.getD i []
        have hi2 : i < (h.cells ++ ds).length := by
          rw [List.length_append]
          exact Nat.lt_of_lt_of_le hi (Nat.le_add_right _ _)
        rw [List.getD_append _ _ _ _ hi2]
        exact List.getD_append _ _ _ _ hi
      · have hL := map_addrSeq_getD ds h.cells ds ([] : DictObj)
        have hR := map_addrSeq_getD ds (h.cells ++ ds) [] ([] : DictObj)
        rw [List.append_nil] at hR
        show (addrSeq h.cells.length ds.length).map
            (fun b => ((h.cells ++ ds) ++ ds).getD b []) =
          (addrSeq (h.cells ++ ds).length ds.length).map
            (fun b => ((h.cells ++ ds) ++ ds).getD b [])
        rw [hL, hR]

/-! ## Helpers for `_on_login` -/

/-- All three mandatory keys present: the check passes. -/
theorem checkKeys_all_present (kvs : List (String × PyVal))
    (h1 : kvs.any (fun kv => kv.1 == "token_type") = true)
    (h2 : kvs.any (fun kv => kv.1 == "access_token") = true)
    (h3 : kvs.any (fun kv => kv.1 == "expires_in") = true) :
    checkKeys (PyVal.dict kvs) mandatoryKeys = Except.ok () := by
  simp [checkKeys, mandatoryKeys, pyIn, h1, h2, h3]

/-- The check stops at the first missing mandatory key, naming it and
showing the payload. -/
theorem checkKeys_first_missing (kvs : List (String × PyVal)) (k : String)
    (hk : mandatoryKeys.find? (fun key => !(kvs.any (fun kv => kv.1 == key))) = some k) :
    checkKeys (PyVal.dict kvs) mandatoryKeys =
      Except.error (PyError.valueError
        ("Missing " ++ k ++ " in reply :" ++ pyValRepr (PyVal.dict kvs))) := by
  simp only [mandatoryKeys, List.find?] at hk
  cases hb1 : kvs.any (fun kv => kv.1 == "token_type") with
  | false =>
      rw [hb1] at hk
      simp only [Bool.not_false, Bool.cond_true] at hk
      injection hk with hk
      subst hk
      simp [checkKeys, mandatoryKeys, pyIn, hb1]
  | true =>
      rw [hb1] at hk
      simp only [Bool.not_true, Bool.cond_false] at hk
      cases hb2 : kvs.any (fun kv => kv.1 == "access_token") with
      | false =>
          rw [hb2] at hk
          simp only [Bool.not_false, Bool.cond_true] at hk
          injection hk with hk
          subst hk
          simp [checkKeys, mandatoryKeys, pyIn, hb1, hb2]
      | true =>
          rw [hb2] at hk
          simp only [Bool.not_true, Bool.cond_false] at hk
          cases hb3 : kvs.any (fun kv => kv.1 == "expires_in") with
          | false =>
              rw [hb3] at hk
              simp only [Bool.not_false, Bool.cond_true] at hk
              injection hk with hk
              subst hk
              simp [checkKeys, mandatoryKeys, pyIn, hb1, hb2, hb3]
          | true =>
              rw [hb3] at hk
              simp only [Bool.not_true, Bool.cond_false] at hk
              exact Option.noConfusion hk

/-- `_on_login` on a JSON response whose payload passes the key
check. -/
theorem onLogin_response_ok (resp : Response) (args : List (String × String))
    (kvs : List (String × PyVal))
    (hct : parseContentType (pyDictGet resp.headers "Content-Type") =
      Except.ok ("application/json", args))
    (hbody : resp.decodeBody (pyDictGet args "charset") = Except.ok (PyVal.dict kvs))
    (hchk : checkKeys (PyVal.dict kvs) mandatoryKeys = Except.ok ()) :
    onLogin (Delivery.response resp) = LoginStep.loginDone (PyVal.dict kvs) := by
  simp [onLogin, onLoginTry, hct, hbody, hchk]

/-- `_on_login` on a JSON response whose payload fails the key
check. -/
theorem onLogin_response_err (resp : Response) (args : List (String × String))
    (kvs : List (String × PyVal)) (e : PyError)
    (hct : parseContentType (pyDictGet resp.headers "Content-Type") =
      Except.ok ("application/json", args))
    (hbody : resp.decodeBody (pyDictGet args "charset") = Except.ok (PyVal.dict kvs))
    (hchk : checkKeys (PyVal.dict kvs) mandatoryKeys = Except.error e) :
    onLogin (Delivery.response resp) = LoginStep.exception e := by
  simp [onLogin, onLoginTry, hct, hbody, hchk]

/-- C6: Content-Type parsing: `"application/json; charset=utf-8"`
yields media type `application/json` with parameter mapping
`charset=utf-8`; `"application/json"` yields the same media type with
an empty parameter mapping; an absent Content-Type header yields a
validation error rather than a silent default. -/
theorem C6_content_type_parsing :
    parseContentType (some "application/json; charset=utf-8") =
      Except.ok ("application/json", [("charset", "utf-8")]) ∧
    parseContentType (some "application/json") = Except.ok ("application/json", []) ∧
    parseContentType none =
      Except.error (PyError.valueError "No content-type given in reply") := by
  refine ⟨by rfl, by rfl, rfl⟩

/-- C7: evaluating `_preprocess_entity` at the failing input, an
entity whose `id` is already a structured reference `Ref("ahu1")`: the
`isinstance(e, hszinc.Ref)` test is written on the dict copy `e`, so
the `.name` extraction never runs, and `'.' in e_id` raises
`TypeError` on the `Ref` — while the same id as a plain string
normalizes to `Ref("ahu1")` as the claim describes. -/
theorem C7_ref_id_eval :
    preprocessEntity (PyVal.dict [("id", PyVal.ref (PyVal.str "ahu1"))]) =
      Except.error (PyError.typeError "argument of type Ref is not iterable") ∧
    preprocessEntity (PyVal.dict [("id", PyVal.str "ahu1")]) =
      Except.ok (PyVal.dict [("id", PyVal.ref (PyVal.str "ahu1"))]) := by
  refine ⟨by rfl, by rfl⟩

/-- C1 counterexample: an execution of `CreateEntityOperation` on a
batch holding the non-dict `7`: `go()` raises, the machine never
reaches `done`, and the completion handler fires zero times — not
exactly once as the claim states for every execution. -/
theorem C1_counterexample :
    (createEntityGo [PyVal.int 7] (CreateDelivery.result (PyVal.str "ok"))).1.handlerFires
      = 0 ∧
    (createEntityGo [PyVal.int 7] (CreateDelivery.result (PyVal.str "ok"))).2 =
      some (PyError.typeError "7 is not a dict") := by
  refine ⟨by rfl, by rfl⟩

/-- C1 as amended: for the authentication operation the handler fires
exactly once on every execution, and still exactly once when the
`exception` transition fires after the terminal state was reached; for
the entity creation operation it fires exactly once whenever `go()`
does not raise during preprocessing. -/
theorem C1_amended (tr : Nat → Delivery) (r : Int) (e : PyError)
    (entities : List PyVal) (d : CreateDelivery)
    (hok : (createEntityGo entities d).2 = none) :
    (runAuthOperation tr r).handlerFires = 1 ∧
    (runAuthOperation tr r).doneFlag = true ∧
    (fireException tr (runAuthOperation tr r) e).handlerFires = 1 ∧
    (createEntityGo entities d).1.handlerFires = 1 := by
  have h1 := runLogin_once tr (initOpState r).retries.toNat (initOpState r) rfl
  have hfresh := h1.2.1 rfl
  rw [runAuthOperation_eq]
  refine ⟨?_, hfresh.2.1, ?_, ?_⟩
  · rw [hfresh.1]
    rfl
  · have hg := fireException_guarded tr (runLogin tr (initOpState r)) e hfresh.2.1
    rw [hg, hfresh.1]
    rfl
  · cases hmap : mapPreprocess entities with
    | error err =>
        rw [createEntityGo_err entities d err hmap] at hok
        simp at hok
    | ok es2 =>
        rw [createEntityGo_ok entities d es2 hmap]
        rw [entityOnRead_fires d _ rfl]
        rfl

/-- C2 counterexample: in `CreateEntityOperation.go` there is no
try/except, so the `TypeError` raised while preprocessing the non-dict
`"bad"` propagates synchronously to the caller of `go()` instead of
being wrapped and routed into the state machine. -/
theorem C2_counterexample :
    (createEntityGo [PyVal.str "bad"] (CreateDelivery.result (PyVal.str "ok"))).2 =
      some (PyError.typeError "\x27bad\x27 is not a dict") := by
  rfl

/-- C2 as amended: in the authentication operation every failure is
captured and routed through the `exception` transition, so the
operation always terminates in `done` carrying the captured error; in
`CreateEntityOperation.go`, an exception raised during preprocessing
(here: any non-dict entity) propagates to the caller of `go()` and no
create request is issued. -/
theorem C2_amended (tr : Nat → Delivery) (r : Int) (e : PyError)
    (hfail : ∀ n, onLogin (tr n) = LoginStep.exception e)
    (v : PyVal) (hv : v.isDict = false) (d : CreateDelivery) :
    (runAuthOperation tr r).fsm = St.done ∧
    (runAuthOperation tr r).resultSlot = some (OpOutcome.failure e) ∧
    (createEntityGo [v] d).2 =
      some (PyError.typeError (pyValRepr v ++ " is not a dict")) ∧
    (createEntityGo [v] d).1.created = none := by
  have h1 := runLogin_allFail tr (fun _ => e) hfail
    (initOpState r).retries.toNat (initOpState r) rfl rfl
  rw [runAuthOperation_eq]
  have hmap : mapPreprocess [v] =
      Except.error (PyError.typeError (pyValRepr v ++ " is not a dict")) :=
    mapPreprocess_notDict [] [] v (by intro x hx; cases hx) hv
  rw [createEntityGo_err [v] d _ hmap]
  exact ⟨h1.1, h1.2.2.2.2, rfl, rfl⟩

/-- C8 counterexample: the batch `[{}, 7]` contains a non-mapping
entity, yet the error raised is the `KeyError` from the earlier
entity's missing `id`, not a type error; no create call is made. -/
theorem C8_counterexample :
    (createEntityGo [PyVal.dict [], PyVal.int 7]
      (CreateDelivery.result (PyVal.str "ok"))).2 = some (PyError.keyError "id") ∧
    (createEntityGo [PyVal.dict [], PyVal.int 7]
      (CreateDelivery.result (PyVal.str "ok"))).1.created = none := by
  refine ⟨by rfl, by rfl⟩

/-- C8 as amended: `"proj.equip.ahu1"` normalizes to the structured
reference `ahu1` and a bare `"ahu1"` is wrapped unchanged; for every
batch containing a non-mapping entity zero network calls are made, and
the raised error is the `TypeError` naming that entity provided every
entity before the first non-mapping preprocesses successfully
(otherwise that earlier entity's own error is raised first, still with
zero network calls). -/
theorem C8_amended (d : CreateDelivery) (pre post batch : List PyVal) (v : PyVal)
    (hpre : ∀ x ∈ pre, ∃ y, preprocessEntity x = Except.ok y)
    (hv : v.isDict = false)
    (hbatch : ∃ x ∈ batch, x.isDict = false) :
    preprocessEntity (PyVal.dict [("id", PyVal.str "proj.equip.ahu1")]) =
      Except.ok (PyVal.dict [("id", PyVal.ref (PyVal.str "ahu1"))]) ∧
    preprocessEntity (PyVal.dict [("id", PyVal.str "ahu1")]) =
      Except.ok (PyVal.dict [("id", PyVal.ref (PyVal.str "ahu1"))]) ∧
    (createEntityGo (pre ++ v :: post) d).2 =
      some (PyError.typeError (pyValRepr v ++ " is not a dict")) ∧
    (createEntityGo (pre ++ v :: post) d).1.created = none ∧
    (createEntityGo batch d).1.created = none := by
  have hmap := mapPreprocess_notDict pre post v hpre hv
  obtain ⟨err, herr⟩ := mapPreprocess_err_of_notDict batch hbatch
  rw [createEntityGo_err _ d _ hmap, createEntityGo_err _ d _ herr]
  exact ⟨by rfl, by rfl, rfl, rfl, rfl⟩

/-- C3: with `retries = 2`, if every attempt fails, exactly 3 login
attempts are issued before the operation aborts to `done` carrying the
last failure; if the first two fail and the third succeeds, exactly 3
attempts are issued and the third attempt's decoded result is
delivered. -/
theorem C3_three_attempts (tr tr2 : Nat → Delivery) (es : Nat → PyError)
    (e0 e1 : PyError) (reply : PyVal)
    (hfail : ∀ n, onLogin (tr n) = LoginStep.exception (es n))
    (h0 : onLogin (tr2 0) = LoginStep.exception e0)
    (h1 : onLogin (tr2 1) = LoginStep.exception e1)
    (h2 : onLogin (tr2 2) = LoginStep.loginDone reply) :
    ((runAuthOperation tr 2).attempts = 3 ∧
     (runAuthOperation tr 2).fsm = St.done ∧
     (runAuthOperation tr 2).resultSlot = some (OpOutcome.failure (es 2))) ∧
    ((runAuthOperation tr2 2).attempts = 3 ∧
     (runAuthOperation tr2 2).fsm = St.done ∧
     (runAuthOperation tr2 2).resultSlot = some (OpOutcome.success reply)) := by
  constructor
  · have hA := runLogin_allFail tr es hfail
      (initOpState 2).retries.toNat (initOpState 2) rfl rfl
    rw [runAuthOperation_eq]
    exact ⟨hA.2.1, hA.1, hA.2.2.2.2⟩
  · have hf2 : ∀ n, n < 2 →
        onLogin (tr2 n) = LoginStep.exception (if n = 0 then e0 else e1) := by
      intro n hn
      cases n with
      | zero => simpa using h0
      | succ m =>
          cases m with
          | zero => simpa using h1
          | succ l => omega
    have hB := runLogin_succeedAt tr2 (fun n => if n = 0 then e0 else e1) 2 reply h2 hf2
      2 (initOpState 2) rfl rfl (Nat.le_refl 2)
    rw [runAuthOperation_eq]
    exact ⟨hB.2.1, hB.1, hB.2.2.2.2⟩

/-- C4: for every transport response whose Content-Type parses to
media type `application/json` and whose body decodes to a JSON object
containing `token_type`, `access_token` and `expires_in`, `_on_login`
fires `login_done` and the operation resolves to `done` carrying
exactly that decoded payload. -/
theorem C4_success_payload (resp : Response) (args : List (String × String))
    (kvs : List (String × PyVal)) (tr : Nat → Delivery) (r : Int)
    (hct : parseContentType (pyDictGet resp.headers "Content-Type") =
      Except.ok ("application/json", args))
    (hbody : resp.decodeBody (pyDictGet args "charset") = Except.ok (PyVal.dict kvs))
    (h1 : kvs.any (fun kv => kv.1 == "token_type") = true)
    (h2 : kvs.any (fun kv => kv.1 == "access_token") = true)
    (h3 : kvs.any (fun kv => kv.1 == "expires_in") = true)
    (htr : tr 0 = Delivery.response resp) :
    onLogin (Delivery.response resp) = LoginStep.loginDone (PyVal.dict kvs) ∧
    (runAuthOperation tr r).fsm = St.done ∧
    (runAuthOperation tr r).resultSlot = some (OpOutcome.success (PyVal.dict kvs)) := by
  have honl : onLogin (Delivery.response resp) = LoginStep.loginDone (PyVal.dict kvs) :=
    onLogin_response_ok resp args kvs hct hbody (checkKeys_all_present kvs h1 h2 h3)
  have hok0 : onLogin (tr 0) = LoginStep.loginDone (PyVal.dict kvs) := by
    rw [htr]
    exact honl
  have h4 := runLogin_succeedAt tr (fun _ => PyError.valueError "") 0 (PyVal.dict kvs)
    hok0 (fun n hn => absurd hn (Nat.not_lt_zero n)) 0 (initOpState r) rfl rfl
    (Nat.zero_le _)
  rw [runAuthOperation_eq]
  exact ⟨honl, h4.1, h4.2.2.2.2⟩

/-- C5: for every JSON response object missing at least one mandatory
key, `_on_login` raises the validation error naming the first missing
key (in the tuple's order) and showing the payload, the error is
routed through the `exception` transition, and with that response on
every attempt the operation resolves to `done` carrying that error
after the configured retries are exhausted (`retries + 1` attempts). -/
theorem C5_missing_field (resp : Response) (args : List (String × String))
    (kvs : List (String × PyVal)) (k : String) (tr : Nat → Delivery) (r : Nat)
    (hct : parseContentType (pyDictGet resp.headers "Content-Type") =
      Except.ok ("application/json", args))
    (hbody : resp.decodeBody (pyDictGet args "charset") = Except.ok (PyVal.dict kvs))
    (hk : mandatoryKeys.find? (fun key => !(kvs.any (fun kv => kv.1 == key))) = some k)
    (htr : ∀ n, tr n = Delivery.response resp) :
    onLogin (Delivery.response resp) = LoginStep.exception (PyError.valueError
      ("Missing " ++ k ++ " in reply :" ++ pyValRepr (PyVal.dict kvs))) ∧
    (runAuthOperation tr (r : Int)).fsm = St.done ∧
    (runAuthOperation tr (r : Int)).attempts = r + 1 ∧
    (runAuthOperation tr (r : Int)).resultSlot = some (OpOutcome.failure
      (PyError.valueError
        ("Missing " ++ k ++ " in reply :" ++ pyValRepr (PyVal.dict kvs)))) := by
  have honl : onLogin (Delivery.response resp) = LoginStep.exception (PyError.valueError
      ("Missing " ++ k ++ " in reply :" ++ pyValRepr (PyVal.dict kvs))) :=
    onLogin_response_err resp args kvs _ hct hbody (checkKeys_first_missing kvs k hk)
  have hfail : ∀ n, onLogin (tr n) = LoginStep.exception (PyError.valueError
      ("Missing " ++ k ++ " in reply :" ++ pyValRepr (PyVal.dict kvs))) := by
    intro n
    rw [htr n]
    exact honl
  have hA := runLogin_allFail tr
    (fun _ => PyError.valueError
      ("Missing " ++ k ++ " in reply :" ++ pyValRepr (PyVal.dict kvs)))
    hfail (initOpState (r : Int)).retries.toNat (initOpState (r : Int)) rfl rfl
  rw [runAuthOperation_eq]
  refine ⟨honl, hA.1, ?_, hA.2.2.2.2⟩
  rw [hA.2.1]
  show 0 + (r : Int).toNat + 1 = r + 1
  omega

/-- C10: starting from a nonnegative budget, `_retries` never becomes
negative — the final counter and every value recorded after a
`_do_fail_retry` run are nonnegative — because `_do_fail_retry`
decrements only a strictly positive counter, and it fires `abort`
exactly when the counter is zero. -/
theorem C10_retries_invariant (tr : Nat → Delivery) (r : Int) (hr : 0 ≤ r) :
    0 ≤ (runAuthOperation tr r).retries ∧
    (∀ x ∈ (runAuthOperation tr r).retriesTrace, 0 ≤ x) ∧
    (∀ q : Int, 0 < q → doFailRetry q = (q - 1, FailAction.retry)) ∧
    (∀ q : Int, ¬ 0 < q → doFailRetry q = (q, FailAction.abort)) ∧
    (∀ q : Int, 0 ≤ q → ((doFailRetry q).2 = FailAction.abort ↔ q = 0)) := by
  have h := runLogin_nonneg tr (initOpState r).retries.toNat (initOpState r) rfl hr
    (by intro x hx; cases hx)
  rw [runAuthOperation_eq]
  refine ⟨h.1, h.2, ?_, ?_, ?_⟩
  · intro q hq
    simp [doFailRetry, hq]
  · intro q hq
    simp [doFailRetry, hq]
  · intro q hq
    by_cases hq2 : 0 < q
    · simp [doFailRetry, hq2]
      omega
    · simp [doFailRetry, hq2]
      omega

/-! ## Witnesses: the hypothesized theorems applied at concrete
inputs -/

/-- Witness for the amended C1 at a concrete well-formed batch and a
concrete transport. -/
theorem C1_amended_witness :
    (createEntityGo [PyVal.dict [("id", PyVal.str "a.b")]]
      (CreateDelivery.result (PyVal.str "ok"))).2 = none ∧
    ((runAuthOperation trGood 2).handlerFires = 1 ∧
     (runAuthOperation trGood 2).doneFlag = true ∧
     (fireException trGood (runAuthOperation trGood 2)
       (PyError.valueError "late")).handlerFires = 1 ∧
     (createEntityGo [PyVal.dict [("id", PyVal.str "a.b")]]
       (CreateDelivery.result (PyVal.str "ok"))).1.handlerFires = 1) :=
  ⟨by rfl, C1_amended trGood 2 (PyError.valueError "late")
    [PyVal.dict [("id", PyVal.str "a.b")]] (CreateDelivery.result (PyVal.str "ok"))
    (by rfl)⟩

/-- Witness for the amended C2 at a concrete always-failing transport
and the concrete non-dict entity `"w"`. -/
theorem C2_amended_witness :
    PyVal.isDict (PyVal.str "w") = false ∧
    ((runAuthOperation trConstFail 2).fsm = St.done ∧
     (runAuthOperation trConstFail 2).resultSlot =
       some (OpOutcome.failure (PyError.valueError "boom")) ∧
     (createEntityGo [PyVal.str "w"] (CreateDelivery.result (PyVal.str "ok"))).2 =
       some (PyError.typeError (pyValRepr (PyVal.str "w") ++ " is not a dict")) ∧
     (createEntityGo [PyVal.str "w"] (CreateDelivery.result (PyVal.str "ok"))).1.created =
       none) :=
  ⟨rfl, C2_amended trConstFail 2 (PyError.valueError "boom") (fun n => rfl)
    (PyVal.str "w") rfl (CreateDelivery.result (PyVal.str "ok"))⟩

/-- Witness for C3 at the concrete transports `trFailEach` (always
failing) and `trFailTwice` (failing twice, then succeeding). -/
theorem C3_witness :
    ((runAuthOperation trFailEach 2).attempts = 3 ∧
     (runAuthOperation trFailEach 2).fsm = St.done ∧
     (runAuthOperation trFailEach 2).resultSlot =
       some (OpOutcome.failure (errAt 2))) ∧
    ((runAuthOperation trFailTwice 2).attempts = 3 ∧
     (runAuthOperation trFailTwice 2).fsm = St.done ∧
     (runAuthOperation trFailTwice 2).resultSlot =
       some (OpOutcome.success (PyVal.dict kvsGood))) :=
  C3_three_attempts trFailEach trFailTwice errAt (errAt 0) (errAt 1)
    (PyVal.dict kvsGood) (fun n => rfl) (by rfl) (by rfl) (by rfl)

/-- Witness for C4 at the concrete response `respGood`. -/
theorem C4_witness :
    onLogin (Delivery.response respGood) = LoginStep.loginDone (PyVal.dict kvsGood) ∧
    (runAuthOperation trGood 2).fsm = St.done ∧
    (runAuthOperation trGood 2).resultSlot =
      some (OpOutcome.success (PyVal.dict kvsGood)) :=
  C4_success_payload respGood [("charset", "utf-8")] kvsGood trGood 2
    (by rfl) (by rfl) (by rfl) (by rfl) (by rfl) (by rfl)

/-- Witness for C5 at the concrete response `respMissing`, whose
payload lacks `access_token`, with `retries = 2`. -/
theorem C5_witness :
    onLogin (Delivery.response respMissing) = LoginStep.exception (PyError.valueError
      ("Missing " ++ "access_token" ++ " in reply :" ++ pyValRepr (PyVal.dict kvsMissing))) ∧
    (runAuthOperation trMissing ((2 : Nat) : Int)).fsm = St.done ∧
    (runAuthOperation trMissing ((2 : Nat) : Int)).attempts = 2 + 1 ∧
    (runAuthOperation trMissing ((2 : Nat) : Int)).resultSlot = some (OpOutcome.failure
      (PyError.valueError
        ("Missing " ++ "access_token" ++ " in reply :" ++
          pyValRepr (PyVal.dict kvsMissing)))) :=
  C5_missing_field respMissing [] kvsMissing "access_token" trMissing 2
    (by rfl) (by rfl) (by rfl) (fun n => rfl)

/-- Witness for the amended C8 at a concrete batch: one good entity
followed by the non-dict `9`. -/
theorem C8_amended_witness :
    preprocessEntity (PyVal.dict [("id", PyVal.str "proj.equip.ahu1")]) =
      Except.ok (PyVal.dict [("id", PyVal.ref (PyVal.str "ahu1"))]) ∧
    preprocessEntity (PyVal.dict [("id", PyVal.str "ahu1")]) =
      Except.ok (PyVal.dict [("id", PyVal.ref (PyVal.str "ahu1"))]) ∧
    (createEntityGo ([PyVal.dict [("id", PyVal.str "x.y")]] ++ PyVal.int 9 :: [])
      (CreateDelivery.result (PyVal.str "ok"))).2 =
      some (PyError.typeError (pyValRepr (PyVal.int 9) ++ " is not a dict")) ∧
    (createEntityGo ([PyVal.dict [("id", PyVal.str "x.y")]] ++ PyVal.int 9 :: [])
      (CreateDelivery.result (PyVal.str "ok"))).1.created = none ∧
    (createEntityGo [PyVal.int 9]
      (CreateDelivery.result (PyVal.str "ok"))).1.created = none :=
  C8_amended (CreateDelivery.result (PyVal.str "ok"))
    [PyVal.dict [("id", PyVal.str "x.y")]] [] [PyVal.int 9] (PyVal.int 9)
    (by
      intro x hx
      rw [List.mem_singleton.mp hx]
      exact ⟨PyVal.dict [("id", PyVal.ref (PyVal.str "y"))], by rfl⟩)
    rfl
    ⟨PyVal.int 9, by simp, rfl⟩

/-- Witness for C9 at the concrete one-entity store `heapW`. -/
theorem C9_witness :
    (∀ i, i < heapW.cells.length → heap1W.get i = heapW.get i) ∧
    (∀ i, i < heapW.cells.length → heap2W.get i = heapW.get i) ∧
    ([1] : List Addr).map (fun b => heap2W.get b) =
      ([2] : List Addr).map (fun b => heap2W.get b) :=
  C9_frame_idempotent heapW heap1W heap2W batchW [1] [2]
    (by
      intro e he a hea
      have he2 : e = HVal.addr 0 := List.mem_singleton.mp he
      rw [he2] at hea
      cases hea
      decide)
    (by rfl) (by rfl)

/-- Witness for C10 at `retries = 2` with an always-failing
transport. -/
theorem C10_witness :
    0 ≤ (runAuthOperation trFailEach 2).retries ∧
    (∀ x ∈ (runAuthOperation trFailEach 2).retriesTrace, 0 ≤ x) ∧
    (∀ q : Int, 0 < q → doFailRetry q = (q - 1, FailAction.retry)) ∧
    (∀ q : Int, ¬ 0 < q → doFailRetry q = (q, FailAction.abort)) ∧
    (∀ q : Int, 0 ≤ q → ((doFailRetry q).2 = FailAction.abort ↔ q = 0)) :=
  C10_retries_invariant trFailEach 2 (by decide)

end Widesky
